import Mathlib

/-!
Shallow embedding of the `worldviz/utility-scripts` orchestrator pair
(`src/orchestrator/agent.py` and `src/orchestrator/controller.py`).

Conventions of the embedding:
* wall-clock instants, CPU percentages and memory figures are modelled as `Int`
  (the Python sources only ever add, subtract and compare these floats, so the
  ordered-ring structure is all that matters);
* the OS process table, liveness after the two `wait_procs` windows, and the
  outcomes of `open`/`Popen` are supplied by explicit "world" records, so every
  endpoint handler becomes a pure function of its world, its arguments and the
  job table;
* JSON scalars on the wire are the inductive `JVal`; a Python `dict` is an
  association list `List (String × JVal)`, and `dict.get k default` only falls
  back to `default` when the key is absent, exactly as in Python.
-/

namespace Orchestrator

/-- A JSON scalar value as exchanged between controller and agent.  The poll
loop of `exec_and_wait` only ever reads scalar fields, so arrays/objects are
not needed at the points the proofs touch. -/
inductive JVal where
  | jnull
  | jbool (b : Bool)
  | jint (n : Int)
  | jstr (s : String)
deriving DecidableEq

/-- One entry of the OS process table as seen through `psutil`
(`pid`, parent pid, `name`, `exe`, `create_time`). -/
structure Proc where
  pid : Nat
  parent : Option Nat
  name : String
  exe : String
  create_time : Int
deriving DecidableEq

/-- Agent-side job record; the fields of `_Job.__init__` (agent.py lines
76-88).  `log_files_open` models whether `self.log_files` is non-`None`. -/
structure AJob where
  job_id : String
  pid : Nat
  start_ts : Int
  last_cpu_active_ts : Int
  cpu_percent : Int
  mem_mb : Int
  is_hung : Bool
  cmdline : List String
  cwd : Option String
  log_paths : Option (String × String)
  log_files_open : Bool
deriving DecidableEq

/-- The `ProcInfo` wire model of agent.py (timestamps kept as the underlying
instants; the ISO-8601 rendering is not modelled). -/
structure ProcInfo where
  job_id : String
  pid : Nat
  status : String
  returncode : Option Int
  start_ts : Int
  uptime_sec : Int
  cpu_percent : Int
  mem_mb : Int
  last_cpu_active_ts : Int
  is_hung : Bool
  cmdline : List String
  cwd : Option String
  stdout_log : Option String
  stderr_log : Option String
deriving DecidableEq

/-- Python substring containment `needle in hay` on exploded strings:
`""` is contained in everything. -/
def strHasSub (needle : List Char) : List Char → Bool
  | [] => needle.isEmpty
  | c :: rest => List.isPrefixOf needle (c :: rest) || strHasSub needle rest

/-- Python `needle in hay` for `String`. -/
def pyIn (needle hay : String) : Bool :=
  strHasSub needle.data hay.data

/-- Python `str.lower()` (the scanned names and keywords are ASCII). -/
def pyLower (s : String) : String :=
  ⟨s.data.map Char.toLower⟩

/-- The simulator-related substrings scanned for in `_kill_job`
(agent.py line 270). -/
def carla_keywords : List String :=
  ["carlaue4", "bootstrappackagedgame", "ue4editor"]

/-- `any(keyword in proc_name or keyword in proc_exe for keyword in ...)`
with both strings lowercased first (agent.py lines 265-270). -/
def looksLikeCarla (q : Proc) : Bool :=
  carla_keywords.any (fun k => pyIn k (pyLower q.name) || pyIn k (pyLower q.exe))

/-- `proc_start >= job_start_time - 5 and proc_start <= job_start_time + 60`
(agent.py line 274). -/
def inSpawnWindow (q : Proc) (job_start : Int) : Bool :=
  decide (job_start - 5 ≤ q.create_time) && decide (q.create_time ≤ job_start + 60)

/-- `psutil.Process.children(recursive=True)`: all descendants of `root`
through the parent-pid relation, with fuel bounding the recursion depth. -/
def descendants (table : List Proc) : Nat → Nat → List Proc
  | 0, _ => []
  | fuel + 1, root =>
      (table.filter (fun q => q.parent == some root)).flatMap
        (fun c => c :: descendants table fuel c.pid)

/-- One step of the CARLA-process scan of `_kill_job` (agent.py lines
263-277): append `q` when it matches a keyword, its creation time lies in the
spawn window, and its pid is not already collected. -/
def scan_add (job_start : Int) (acc : List Proc) (q : Proc) : List Proc :=
  if looksLikeCarla q && inSpawnWindow q job_start then
    if (acc.map (fun r => r.pid)).contains q.pid then acc else acc ++ [q]
  else acc

/-- The world against which `_kill_job` runs: the process table at discovery
time, liveness after each `wait_procs` window, and the final
`psutil.pid_exists` verdict. -/
structure KillWorld where
  procs : List Proc
  aliveAfterTermWait : Nat → Bool
  aliveAfterKillWait : Nat → Bool
  pid_exists_end : Nat → Bool

/-- `all_procs` of `_kill_job` (agent.py lines 253-282): the direct child,
its recursive descendants, then the deduplicating CARLA scan folded over the
whole process table. -/
def all_procs_of (w : KillWorld) (p : Proc) (job : AJob) : List Proc :=
  w.procs.foldl (scan_add job.start_ts) (p :: descendants w.procs w.procs.length p.pid)

/-- Observable outcome of one `_kill_job` call: the returned Bool (`none`
models the call raising `UnboundLocalError` on the unassigned `alive`), the
pids sent `terminate`, the pids sent `kill`, and how many times
`job.close_logs()` ran. -/
structure KillResult where
  returned : Option Bool
  term_sent : List Nat
  kill_sent : List Nat
  close_logs_calls : Nat
deriving DecidableEq

/-- The recognised stop modes (agent.py line 285). -/
def valid_modes : List String := ["term", "kill", "tree_kill"]

/-- Tail of `_kill_job` (agent.py lines 312-325): the `pid_exists` check and
the final read of `alive`, which raises when neither escalation branch
assigned it. -/
def final_check (w : KillWorld) (job : AJob) (ts ks : List Nat)
    (alive : Option (List Proc)) : KillResult :=
  if ¬ (w.pid_exists_end job.pid = true) then ⟨some true, ts, ks, 1⟩
  else
    match alive with
    | none => ⟨none, ts, ks, 0⟩
    | some a => if a.isEmpty then ⟨some true, ts, ks, 1⟩ else ⟨some false, ts, ks, 0⟩

/-- `_kill_job` (agent.py lines 241-325).  The second escalation guard is
nested under the first because `{kill, tree_kill} ⊆ {term, kill, tree_kill}`,
which keeps the control flow of the source (two sequential `if`s) unchanged;
for a mode outside both sets the local `alive` is never assigned, modelled by
passing `none` to `final_check`. -/
def _kill_job (w : KillWorld) (job : AJob) (mode : String) : KillResult :=
  match w.procs.find? (fun q => q.pid == job.pid) with
  | none => ⟨some true, [], [], 1⟩
  | some p =>
    let allP := all_procs_of w p job
    if mode ∈ valid_modes then
      let ts := allP.map (fun q => q.pid)
      let alive1 := allP.filter (fun q => w.aliveAfterTermWait q.pid)
      if alive1.isEmpty then ⟨some true, ts, [], 1⟩
      else if mode = "kill" ∨ mode = "tree_kill" then
        let ks := alive1.map (fun q => q.pid)
        let alive2 := allP.filter (fun q => w.aliveAfterKillWait q.pid)
        if alive2.isEmpty then ⟨some true, ts, ks, 1⟩
        else final_check w job ts ks (some alive2)
      else final_check w job ts [] (some alive1)
    else final_check w job [] [] none

/-- The pid set `_kill_job` discovers for a job, before any signalling. -/
def kill_set_pids (w : KillWorld) (job : AJob) : List Nat :=
  match w.procs.find? (fun q => q.pid == job.pid) with
  | none => []
  | some p => (all_procs_of w p job).map (fun q => q.pid)

/-! ## Agent HTTP layer -/

/-- How an endpoint call ends when it does not produce its success body:
`httpEx` is a deliberately raised `HTTPException`, `raised` an unhandled
Python exception (which FastAPI turns into a generic 500). -/
inductive HttpErr where
  | httpEx (code : Nat) (detail : String)
  | raised (msg : String)
deriving DecidableEq

/-- Endpoint result: success value or error. -/
inductive Resp (α : Type) where
  | ok (val : α)
  | err (e : HttpErr)
deriving DecidableEq

/-- The in-memory `JOBS` table: insertion-ordered association list. -/
abbrev JobTable := List (String × AJob)

/-- `JOBS.get(job_id)`: first entry with the given key. -/
def job_lookup : JobTable → String → Option AJob
  | [], _ => none
  | e :: rest, k => if e.1 = k then some e.2 else job_lookup rest k

/-- `JOBS.pop(job_id, None)`. -/
def erase_job (t : JobTable) (k : String) : JobTable :=
  t.filter (fun e => ¬ (e.1 = k))

/-- `StartRequest` (agent.py lines 40-46). -/
structure StartRequest where
  job_id : Option String
  cmd : List String
  cwd : Option String
  env : Option (List (String × String))
  log_dir : Option String
  kill_existing : Bool
deriving DecidableEq

/-- `StartResponse` (agent.py lines 68-72). -/
structure StartResponse where
  job_id : String
  pid : Nat
  stdout_log : Option String
  stderr_log : Option String
deriving DecidableEq

/-- `StopRequest` (agent.py lines 48-50): `mode` is a plain string, the
pydantic model performs no membership validation. -/
structure StopRequest where
  job_id : String
  mode : String
deriving DecidableEq

/-- `{"status": "sent", "job_id": ..., "mode": ...}` returned by `/stop`. -/
structure StopResp where
  status : String
  job_id : String
  mode : String
deriving DecidableEq

/-- `/stop` (agent.py lines 327-334): look the job up (404 when absent), run
`_kill_job` with the request mode, and answer `{"status":"sent"}`.  When
`_kill_job` raises (`returned = none`) the exception propagates and no success
body is produced.  The table keeps every key; only the job's log-handle state
may change. -/
def stop_job (kw : KillWorld) (t : JobTable) (req : StopRequest) :
    JobTable × Resp StopResp :=
  match job_lookup t req.job_id with
  | none => (t, .err (.httpEx 404 "job_id not found"))
  | some job =>
    let r := _kill_job kw job req.mode
    match r.returned with
    | none => (t, .err (.raised "UnboundLocalError: alive referenced before assignment"))
    | some _ =>
        (t.map (fun e =>
            if e.1 = req.job_id ∧ 0 < r.close_logs_calls
            then (e.1, { e.2 with log_files_open := false }) else e),
         .ok ⟨"sent", req.job_id, req.mode⟩)

/-- `_open_logs` (agent.py lines 172-178): `None`/empty `log_dir` yields no
paths, otherwise the two per-job log paths. -/
def _open_logs (log_dir : Option String) (jid : String) : Option (String × String) :=
  match log_dir with
  | none => none
  | some d =>
      if d = "" then none
      else some (d ++ "/" ++ jid ++ ".out.log", d ++ "/" ++ jid ++ ".err.log")

/-- `_Job.__init__` for a freshly spawned process (agent.py lines 76-88 and
235-236): `last_cpu_active_ts` starts at `start_ts`, and `log_files` is set
exactly when log paths exist. -/
def mk_job (jid : String) (pid : Nat) (cmd : List String) (cwd : Option String)
    (logs : Option (String × String)) (now : Int) : AJob :=
  { job_id := jid, pid := pid, start_ts := now, last_cpu_active_ts := now,
    cpu_percent := 0, mem_mb := 0, is_hung := false, cmdline := cmd, cwd := cwd,
    log_paths := logs, log_files_open := logs.isSome }

/-- World for one `/start` call: the kill world used against a pre-existing
job, the generated uuid, whether each `open` and the `Popen` fail, the new
pid and the spawn instant. -/
structure StartWorld where
  kw : KillWorld
  fresh_id : String
  stdout_open_fails : Bool
  stderr_open_fails : Bool
  spawn_fails : Bool
  new_pid : Nat
  now : Int

/-- Observable outcome of `/start`: the table afterwards, the response, which
log handles were opened during the call, which of those the handler closed
again, and the mode the handler used against a displaced old job. -/
structure StartOutcome where
  table : JobTable
  response : Resp StartResponse
  opened : List String
  closed : List String
  old_kill_mode : Option String
deriving DecidableEq

/-- Log-open / spawn / register tail of `/start` (agent.py lines 204-239).
The two `open` calls run one after the other, so a failing stderr open leaves
the stdout handle open; only the `except` around `Popen` closes handles. -/
def start_spawn (w : StartWorld) (t1 : JobTable) (req : StartRequest)
    (jid : String) (okm : Option String) : StartOutcome :=
  match _open_logs req.log_dir jid with
  | some (op, ep) =>
      if w.stdout_open_fails then
        ⟨t1, .err (.raised "OSError: opening stdout log failed"), [], [], okm⟩
      else if w.stderr_open_fails then
        ⟨t1, .err (.raised "OSError: opening stderr log failed"), [op], [], okm⟩
      else if w.spawn_fails then
        ⟨t1, .err (.httpEx 500 "Failed to start"), [op, ep], [op, ep], okm⟩
      else
        ⟨t1 ++ [(jid, mk_job jid w.new_pid req.cmd req.cwd (some (op, ep)) w.now)],
         .ok ⟨jid, w.new_pid, some op, some ep⟩, [op, ep], [], okm⟩
  | none =>
      if w.spawn_fails then
        ⟨t1, .err (.httpEx 500 "Failed to start"), [], [], okm⟩
      else
        ⟨t1 ++ [(jid, mk_job jid w.new_pid req.cmd req.cwd none w.now)],
         .ok ⟨jid, w.new_pid, none, none⟩, [], [], okm⟩

/-- `/start` (agent.py lines 184-239): resolve the job id, then under the
table lock either tree-kill and drop a same-id job (`kill_existing`), reject
a duplicate with 409, or fall through to spawning.  The post-kill wait for
the old pid only sleeps and is not observable here. -/
def start_job (w : StartWorld) (t : JobTable) (req : StartRequest) : StartOutcome :=
  let jid := req.job_id.getD w.fresh_id
  if req.kill_existing ∧ (job_lookup t jid).isSome then
    start_spawn w (erase_job t jid) req jid (some "tree_kill")
  else if (job_lookup t jid).isSome then
    ⟨t, .err (.httpEx 409 ("job_id " ++ jid ++ " already exists")), [], [], none⟩
  else
    start_spawn w t req jid none

/-- One pass of `_metrics_loop` (agent.py lines 352-362): drop every job whose
child has been reaped (`poll` yields a returncode) and whose `start_ts` is
more than an hour old.  `poll` is the per-job `popen.poll()` observation. -/
def metrics_prune (now : Int) (poll : String → Option Int) (t : JobTable) : JobTable :=
  t.filter (fun e => ¬ ((poll e.1).isSome ∧ 3600 < now - e.2.start_ts))

/-! ## Sampling and hang detection (`_Job.snapshot`) -/

/-- The two hang-detection knobs `HUNG_CPU_PCT` and `HUNG_SECS`
(agent.py lines 24-25). -/
structure AgentCfg where
  hung_cpu_pct : Int
  hung_secs : Int
deriving DecidableEq

/-- The live branch of `_Job.snapshot` (agent.py lines 105-138): a fresh CPU
sample `cpu` at instant `now`; `last_cpu_active_ts` moves to `now` exactly
when `cpu` strictly exceeds the threshold, and `is_hung` compares the
inactivity span against `HUNG_SECS`.  `poll` is `popen.poll()` at snapshot
time.  Returns the updated job state and the reported `ProcInfo`. -/
def snapshot_live (cfg : AgentCfg) (job : AJob) (cpu mem now : Int)
    (poll : Option Int) : AJob × ProcInfo :=
  let last1 := if cfg.hung_cpu_pct < cpu then now else job.last_cpu_active_ts
  let hung := decide (cfg.hung_secs ≤ now - last1)
  let job1 := { job with last_cpu_active_ts := last1, cpu_percent := cpu,
                         mem_mb := mem, is_hung := hung }
  (job1,
   { job_id := job.job_id, pid := job.pid,
     status := if poll.isSome then "exited" else "running",
     returncode := poll,
     start_ts := job.start_ts, uptime_sec := now - job.start_ts,
     cpu_percent := cpu, mem_mb := mem,
     last_cpu_active_ts := last1, is_hung := hung,
     cmdline := job.cmdline, cwd := job.cwd,
     stdout_log := job.log_paths.map Prod.fst,
     stderr_log := job.log_paths.map Prod.snd })

/-- The `psutil.NoSuchProcess` branch of `_Job.snapshot` (agent.py lines
139-157): the job state is left untouched and a synthetic `ProcInfo` is
reported, `"exited"` when the handle has a reaped returncode and `"unknown"`
otherwise, zeros for CPU/memory and `is_hung = true`. -/
def snapshot_vanished (job : AJob) (now : Int) (poll : Option Int) : ProcInfo :=
  { job_id := job.job_id, pid := job.pid,
    status := if poll.isSome then "exited" else "unknown",
    returncode := poll,
    start_ts := job.start_ts, uptime_sec := max 0 (now - job.start_ts),
    cpu_percent := 0, mem_mb := 0,
    last_cpu_active_ts := job.last_cpu_active_ts, is_hung := true,
    cmdline := job.cmdline, cwd := job.cwd,
    stdout_log := job.log_paths.map Prod.fst,
    stderr_log := job.log_paths.map Prod.snd }

/-- What one `/status` call observes about a job: either a live sample or a
vanished process. -/
inductive Obs where
  | live (cpu mem now : Int) (poll : Option Int)
  | vanished (now : Int) (poll : Option Int)
deriving DecidableEq

/-- Fold a sequence of `/status` observations through the job state. -/
def run_snapshots (cfg : AgentCfg) : AJob → List Obs → AJob
  | job, [] => job
  | job, Obs.live cpu mem now poll :: rest =>
      run_snapshots cfg (snapshot_live cfg job cpu mem now poll).1 rest
  | job, Obs.vanished _ _ :: rest => run_snapshots cfg job rest

/-- Sample instants are at least `t` and nondecreasing along the trace
(`time.time()` is monotone). -/
def times_ok : Int → List Obs → Bool
  | _, [] => true
  | t, Obs.live _ _ now _ :: rest => decide (t ≤ now) && times_ok now rest
  | t, Obs.vanished _ _ :: rest => times_ok t rest

/-- The instant of the last live sample of the trace (or `t` if none). -/
def end_time : Int → List Obs → Int
  | t, [] => t
  | _, Obs.live _ _ now _ :: rest => end_time now rest
  | t, Obs.vanished _ _ :: rest => end_time t rest

/-! ## Controller (`controller.py`) -/

/-- One inventory entry `{name, host, port}`; `port` defaults to 8081 at use
sites. -/
structure Client where
  name : String
  host : String
  port : Option Nat
deriving DecidableEq

/-- The inventory read by the controller. -/
structure Inventory where
  token : String
  clients : List Client
deriving DecidableEq

/-- Python `s.split(c)` for a one-character separator, on exploded strings. -/
def splitOnChar (c : Char) : List Char → List (List Char)
  | [] => [[]]
  | x :: rest =>
      match splitOnChar c rest with
      | [] => if x = c then [[], []] else [[x]]
      | g :: gs => if x = c then [] :: g :: gs else (x :: g) :: gs

/-- Python `client_filter.split(",")`. -/
def pySplitComma (s : String) : List String :=
  (splitOnChar ',' s.data).map (fun l => String.mk l)

/-- Python `name.strip()`: drop leading and trailing whitespace. -/
def pyStrip (s : String) : String :=
  String.mk (((s.data.dropWhile Char.isWhitespace).reverse.dropWhile
      Char.isWhitespace).reverse)

/-- `filter_clients` (controller.py lines 21-29).  Returns the filtered
inventory and whether the no-match warning was printed.  A `None` or empty
filter string is falsy in Python and leaves the inventory untouched. -/
def filter_clients (inv : Inventory) (client_filter : Option String) :
    Inventory × Bool :=
  match client_filter with
  | none => (inv, false)
  | some f =>
      if f = "" then (inv, false)
      else
        let allowed := (pySplitComma f).map pyStrip
        let filtered := inv.clients.filter (fun c => allowed.contains c.name)
        ({ inv with clients := filtered }, filtered.isEmpty)

/-- The URL a fan-out builds for one client. -/
def client_url (c : Client) (path : String) : String :=
  "http://" ++ c.host ++ ":" ++ toString (c.port.getD 8081) ++ path

/-- The shared fan-out shape of `start_all`, `stop_all`, `status` and the
start phase of `exec_and_wait` (controller.py lines 31-59 and 87-90):
`ThreadPoolExecutor(max_workers=min(32, len(clients)))` raises `ValueError`
when the client list is empty, before anything is submitted.  Returns the
dispatched URLs and the raised error, if any. -/
def pool_fan_out (inv : Inventory) (path : String) :
    List String × Option String :=
  if inv.clients.length = 0 then
    ([], some "ValueError: max_workers must be greater than 0")
  else
    (inv.clients.map (fun c => client_url c path), none)

/-- `start_all` network activity (controller.py lines 31-40). -/
def start_all_net (inv : Inventory) : List String × Option String :=
  pool_fan_out inv "/start"

/-- `stop_all` network activity (controller.py lines 42-51). -/
def stop_all_net (inv : Inventory) (mode : String) : List String × Option String :=
  pool_fan_out inv ("/stop_all?mode=" ++ mode)

/-- `status` network activity (controller.py lines 53-76). -/
def status_net (inv : Inventory) : List String × Option String :=
  pool_fan_out inv "/status"

/-- The initial fan-out of `exec_and_wait` (controller.py lines 87-90); when
it raises, the polling loop is never reached and no request at all is made. -/
def exec_start_net (inv : Inventory) : List String × Option String :=
  pool_fan_out inv "/start"

/-- Python `d[k]` on a JSON object, with the agent guaranteeing presence of
the keys the poll loop indexes. -/
def dict_index (d : List (String × JVal)) (k : String) : JVal :=
  (d.lookup k).getD JVal.jnull

/-- Python `d.get(k, default)`: the default applies only when `k` is absent —
a key mapped to `null` yields `null`. -/
def dict_get (d : List (String × JVal)) (k : String) (default : JVal) : JVal :=
  match d.lookup k with
  | some v => v
  | none => default

/-- FastAPI serialisation of a `ProcInfo`: every scalar field is emitted,
including `returncode: null`.  (String-rendered timestamps and the `cmdline`
array are not read by the poll loop and are omitted from the wire model.) -/
def wire_proc_info (p : ProcInfo) : List (String × JVal) :=
  [("job_id", JVal.jstr p.job_id),
   ("pid", JVal.jint p.pid),
   ("status", JVal.jstr p.status),
   ("returncode", match p.returncode with | some n => JVal.jint n | none => JVal.jnull),
   ("uptime_sec", JVal.jint p.uptime_sec),
   ("cpu_percent", JVal.jint p.cpu_percent),
   ("mem_mb", JVal.jint p.mem_mb),
   ("is_hung", JVal.jbool p.is_hung)]

/-- What one polling pass decides for one client (controller.py lines
121-139): either a value is recorded into `results[name]` (with a `break`),
or the job is still running and `all_done` is cleared. -/
inductive PollStep where
  | recorded (v : JVal)
  | running
deriving DecidableEq

/-- The body of the per-client status handling in `exec_and_wait`
(controller.py lines 121-139): find the first job with the target `job_id`;
if its status is `"exited"` or `"unknown"` record
`job.get("returncode", 0)`, else mark still running; if no job matches,
record `0` ("likely exited quickly - assuming success"). -/
def exec_poll_client (jobs : List (List (String × JVal))) (jid : String) : PollStep :=
  match jobs.find? (fun j => dict_index j "job_id" == JVal.jstr jid) with
  | some j =>
      if dict_index j "status" == JVal.jstr "exited"
         || dict_index j "status" == JVal.jstr "unknown" then
        .recorded (dict_get j "returncode" (JVal.jint 0))
      else .running
  | none => .recorded (JVal.jint 0)

/-- The success fold of `main` over the results map (controller.py lines
291-300 and 320-329): `all_success` starts `True`, stays unchanged on a
recorded `0` and becomes `False` on `None` (timeout) or any other value. -/
def all_success (results : List (String × JVal)) : Bool :=
  results.foldl (fun acc r => if r.2 = JVal.jint 0 then acc else false) true

/-- `sys.exit(0 if all_success else 1)` (controller.py lines 302 and 331). -/
def controller_exit_code (results : List (String × JVal)) : Nat :=
  if all_success results then 0 else 1

/-- The `start` payload built by `main` (controller.py lines 280-287):
`kill_existing` is the literal `True`. -/
def start_cli_payload (jid exe : String) (args : List String)
    (cwd : Option String) (log_dir : String) : StartRequest :=
  { job_id := some jid, cmd := exe :: args, cwd := cwd, env := none,
    log_dir := some log_dir, kill_existing := true }

/-- The `exec` payload built by `main` (controller.py lines 310-317):
`kill_existing` is again the literal `True`. -/
def exec_cli_payload (jid exe : String) (args : List String)
    (cwd : Option String) (log_dir : String) : StartRequest :=
  { job_id := some jid, cmd := exe :: args, cwd := cwd, env := none,
    log_dir := some log_dir, kill_existing := true }

/-! ## Shared fixtures for concrete evaluations -/

/-- A process unrelated to the simulator keywords. -/
def demo_proc : Proc := ⟨10, none, "sim_worker", "", 0⟩

/-- A world in which every process survives both waits and the final
`pid_exists` check. -/
def w_surv : KillWorld :=
  ⟨[demo_proc], fun _ => true, fun _ => true, fun _ => true⟩

/-- A world in which the soft terminate already clears everything. -/
def w_dead : KillWorld :=
  ⟨[demo_proc], fun _ => false, fun _ => false, fun _ => false⟩

/-- A job supervising `demo_proc`. -/
def j_demo : AJob := mk_job "jdemo" 10 ["sim"] none none 0

/-! ## Helper lemmas -/

theorem all_success_foldl_false (l : List (String × JVal)) :
    l.foldl (fun acc r => if r.2 = JVal.jint 0 then acc else false) false = false := by
  induction l with
  | nil => rfl
  | cons x l ih => simp only [List.foldl_cons]; split <;> exact ih

theorem all_success_eq_all (l : List (String × JVal)) :
    all_success l = l.all (fun r => decide (r.2 = JVal.jint 0)) := by
  unfold all_success
  induction l with
  | nil => rfl
  | cons x l ih =>
      rw [List.foldl_cons, List.all_cons]
      by_cases hx : x.2 = JVal.jint 0
      · rw [if_pos hx, ih, decide_eq_true hx, Bool.true_and]
      · rw [if_neg hx, all_success_foldl_false, decide_eq_false hx, Bool.false_and]

/-! ## C1 -/

/-- C1 (counterexample): with an empty results map the aggregation loop never
clears `all_success`, so the controller exits 0 — the claimed equivalence
"exit 0 iff the results map is non-empty and all zero" fails at `[]`. -/
theorem controller_exit_code_empty_cex :
    controller_exit_code [] = 0
    ∧ ¬ (controller_exit_code [] = 0 ↔
          (([] : List (String × JVal)) ≠ [] ∧
           ∀ r ∈ ([] : List (String × JVal)), r.2 = JVal.jint 0)) := by
  constructor
  · rfl
  · intro h
    exact absurd ((h.mp rfl).1) (by simp)

/-- C1 (amended): the controller of the waiting modes exits 0 iff every
recorded entry is exactly `0`; the empty results map (reachable when every
`/start` fails) therefore exits 0, and any `null` (timeout) or non-zero entry
forces exit code 1. -/
theorem controller_exit_code_spec (results : List (String × JVal)) :
    (controller_exit_code results = 0 ↔ ∀ r ∈ results, r.2 = JVal.jint 0)
    ∧ controller_exit_code [] = 0
    ∧ (∀ r ∈ results, r.2 = JVal.jnull → controller_exit_code results = 1)
    ∧ (∀ r ∈ results, ∀ n : Int, r.2 = JVal.jint n → n ≠ 0 →
        controller_exit_code results = 1) := by
  have hall : all_success results = true ↔ ∀ r ∈ results, r.2 = JVal.jint 0 := by
    rw [all_success_eq_all]
    simp [List.all_eq_true]
  have hiff : controller_exit_code results = 0 ↔ ∀ r ∈ results, r.2 = JVal.jint 0 := by
    unfold controller_exit_code
    by_cases hb : all_success results = true
    · rw [if_pos hb]
      exact ⟨fun _ => hall.mp hb, fun _ => rfl⟩
    · rw [if_neg hb]
      exact ⟨fun h1 => absurd h1 one_ne_zero, fun hc => absurd (hall.mpr hc) hb⟩
  have hzero_or_one : controller_exit_code results = 0 ∨ controller_exit_code results = 1 := by
    unfold controller_exit_code
    split
    · exact Or.inl rfl
    · exact Or.inr rfl
  refine ⟨hiff, rfl, ?_, ?_⟩
  · intro r hr hnull
    rcases hzero_or_one with h0 | h1
    · have := hiff.mp h0 r hr
      rw [hnull] at this
      cases this
    · exact h1
  · intro r hr n hn hne
    rcases hzero_or_one with h0 | h1
    · have := hiff.mp h0 r hr
      rw [hn] at this
      cases this
      exact absurd rfl hne
    · exact h1

/-- C1 (witness): applying the amended statement at a one-entry map holding a
`null` (timeout) entry yields exit code 1. -/
theorem controller_exit_code_spec_witness :
    (("a", JVal.jnull) ∈ [("a", JVal.jnull)] ∧ ("a", JVal.jnull).2 = JVal.jnull)
    ∧ controller_exit_code [("a", JVal.jnull)] = 1 :=
  ⟨⟨by simp, rfl⟩,
   (controller_exit_code_spec [("a", JVal.jnull)]).2.2.1 ("a", JVal.jnull) (by simp) rfl⟩

/-! ## C2 -/

/-- A job whose child vanished from the process table before the `Popen`
handle was reaped. -/
def c2_job : AJob := mk_job "j1" 42 ["worker.exe"] none none 100

/-- C2 (code bug): for a job whose process vanished unreaped, the agent
reports `status = "unknown"` with `returncode = null`; the wire object
therefore carries the key `"returncode"` mapped to `null`, so
`job.get("returncode", 0)` in the poll loop returns `None` — the `0` default
is dead — and the recorded `None` entry drives the final exit code to 1
(printed as TIMEOUT), not to success as the claim states. -/
theorem null_returncode_recorded_as_none :
    (snapshot_vanished c2_job 100 none).status = "unknown"
    ∧ (snapshot_vanished c2_job 100 none).returncode = none
    ∧ dict_get (wire_proc_info (snapshot_vanished c2_job 100 none)) "returncode" (JVal.jint 0)
        = JVal.jnull
    ∧ exec_poll_client [wire_proc_info (snapshot_vanished c2_job 100 none)] "j1"
        = PollStep.recorded JVal.jnull
    ∧ exec_poll_client [wire_proc_info (snapshot_vanished c2_job 100 none)] "j1"
        ≠ PollStep.recorded (JVal.jint 0)
    ∧ controller_exit_code [("clientA", JVal.jnull)] = 1 := by
  refine ⟨rfl, rfl, rfl, rfl, ?_, rfl⟩
  decide

/-! ## C3 -/

theorem mem_map_pid_scan_foldl (start : Int) (procs : List Proc) :
    ∀ (base : List Proc) (x : Nat),
      x ∈ (procs.foldl (scan_add start) base).map (fun q => q.pid) ↔
        x ∈ base.map (fun q => q.pid)
        ∨ ∃ q ∈ procs, (looksLikeCarla q && inSpawnWindow q start) = true ∧ q.pid = x := by
  induction procs with
  | nil => intro base x; simp
  | cons q rest ih =>
      intro base x
      rw [List.foldl_cons, ih]
      simp only [List.mem_cons]
      constructor
      · rintro (hbase | ⟨q2, hq2, hcond, hpid⟩)
        · unfold scan_add at hbase
          by_cases hc : (looksLikeCarla q && inSpawnWindow q start) = true
          · rw [if_pos hc] at hbase
            by_cases hm : ((base.map (fun r => r.pid)).contains q.pid) = true
            · rw [if_pos hm] at hbase
              exact Or.inl hbase
            · rw [if_neg hm, List.map_append] at hbase
              rcases List.mem_append.mp hbase with h1 | h2
              · exact Or.inl h1
              · simp only [List.map_cons, List.map_nil, List.mem_singleton] at h2
                exact Or.inr ⟨q, Or.inl rfl, hc, h2.symm⟩
          · rw [if_neg hc] at hbase
            exact Or.inl hbase
        · exact Or.inr ⟨q2, Or.inr hq2, hcond, hpid⟩
      · rintro (hbase | ⟨q2, (rfl | hq2), hcond, hpid⟩)
        · left
          unfold scan_add
          split_ifs with h1 h2
          · exact hbase
          · rw [List.map_append]
            exact List.mem_append.mpr (Or.inl hbase)
          · exact hbase
        · left
          unfold scan_add
          rw [if_pos hcond]
          by_cases hm : ((base.map (fun r => r.pid)).contains q2.pid) = true
          · rw [if_pos hm]
            have hq : q2.pid ∈ base.map (fun r => r.pid) := by
              simpa using hm
            rw [← hpid]
            exact hq
          · rw [if_neg hm, List.map_append]
            refine List.mem_append.mpr (Or.inr ?_)
            simp [← hpid]
        · exact Or.inr ⟨q2, hq2, hcond, hpid⟩

theorem final_check_term_sent (w : KillWorld) (job : AJob) (ts ks : List Nat)
    (al : Option (List Proc)) : (final_check w job ts ks al).term_sent = ts := by
  unfold final_check
  split
  · rfl
  · cases al with
    | none => rfl
    | some a => split <;> first | rfl | (split <;> rfl)

theorem term_sent_eq_kill_set (w : KillWorld) (job : AJob) (m : String)
    (hm : m ∈ valid_modes) :
    (_kill_job w job m).term_sent = kill_set_pids w job := by
  unfold _kill_job kill_set_pids
  cases h : w.procs.find? (fun q => q.pid == job.pid) with
  | none => rfl
  | some p =>
      simp only []
      rw [if_pos hm]
      split
      · rfl
      · split
        · split
          · rfl
          · exact final_check_term_sent _ _ _ _ _
        · exact final_check_term_sent _ _ _ _ _

theorem _kill_job_kill_eq_tree (w : KillWorld) (job : AJob) :
    _kill_job w job "kill" = _kill_job w job "tree_kill" := by
  unfold _kill_job
  cases h : w.procs.find? (fun q => q.pid == job.pid) with
  | none => rfl
  | some p => rfl

theorem kill_set_characterization (w : KillWorld) (job : AJob) (x : Nat) :
    x ∈ kill_set_pids w job ↔
      ((∃ p ∈ w.procs, p.pid = job.pid) ∧
        (x = job.pid
          ∨ x ∈ (descendants w.procs w.procs.length job.pid).map (fun q => q.pid)
          ∨ ∃ q ∈ w.procs,
              (looksLikeCarla q && inSpawnWindow q job.start_ts) = true ∧ q.pid = x)) := by
  unfold kill_set_pids
  cases h : w.procs.find? (fun q => q.pid == job.pid) with
  | none =>
      simp only [List.not_mem_nil, false_iff]
      rintro ⟨⟨p, hp, hpid⟩, -⟩
      have := List.find?_eq_none.mp h p hp
      simp [hpid] at this
  | some p =>
      have hpeq : p.pid = job.pid := by
        have := List.find?_some h
        simpa using this
      have hpmem : p ∈ w.procs := List.mem_of_find?_eq_some h
      unfold all_procs_of
      rw [mem_map_pid_scan_foldl]
      simp only [List.map_cons, List.mem_cons, hpeq]
      constructor
      · rintro ((hx | hd) | hs)
        · exact ⟨⟨p, hpmem, hpeq⟩, Or.inl hx⟩
        · exact ⟨⟨p, hpmem, hpeq⟩, Or.inr (Or.inl hd)⟩
        · exact ⟨⟨p, hpmem, hpeq⟩, Or.inr (Or.inr hs)⟩
      · rintro ⟨-, (hx | hd | hs)⟩
        · exact Or.inl (Or.inl hx)
        · exact Or.inl (Or.inr hd)
        · exact Or.inr hs

/-- C3: for every `_kill_job` call (the only termination routine, used by
`/stop`, `/stop_all` and the `kill_existing` path of `/start`), the process
set acted on — the pids sent the initial terminate — is the same
mode-independent `kill_set_pids`: the direct child, its recursive
descendants, and every table process matching a simulator keyword
case-insensitively whose creation time lies in
`[start_ts - 5, start_ts + 60]`; and modes `kill` and `tree_kill` produce
extensionally identical outcomes. -/
theorem kill_modes_extensionally_equal (w : KillWorld) (job : AJob) :
    ((_kill_job w job "term").term_sent = kill_set_pids w job
      ∧ (_kill_job w job "kill").term_sent = kill_set_pids w job
      ∧ (_kill_job w job "tree_kill").term_sent = kill_set_pids w job)
    ∧ _kill_job w job "kill" = _kill_job w job "tree_kill"
    ∧ ∀ x : Nat,
        x ∈ kill_set_pids w job ↔
          ((∃ p ∈ w.procs, p.pid = job.pid) ∧
            (x = job.pid
              ∨ x ∈ (descendants w.procs w.procs.length job.pid).map (fun q => q.pid)
              ∨ ∃ q ∈ w.procs,
                  (looksLikeCarla q && inSpawnWindow q job.start_ts) = true ∧ q.pid = x)) :=
  ⟨⟨term_sent_eq_kill_set w job "term" (by decide),
    term_sent_eq_kill_set w job "kill" (by decide),
    term_sent_eq_kill_set w job "tree_kill" (by decide)⟩,
   _kill_job_kill_eq_tree w job,
   fun x => kill_set_characterization w job x⟩

/-! ## C4 -/

theorem final_check_close_logs (w : KillWorld) (job : AJob) (ts ks : List Nat)
    (a : List Proc) :
    ((final_check w job ts ks (some a)).returned = some true →
       (final_check w job ts ks (some a)).close_logs_calls = 1)
    ∧ ((final_check w job ts ks (some a)).returned = some false →
       (final_check w job ts ks (some a)).close_logs_calls = 0) := by
  by_cases hpe : w.pid_exists_end job.pid = true
  · by_cases ha : a.isEmpty = true
    · simp [final_check, hpe, ha]
    · simp [final_check, hpe, ha]
  · simp [final_check, hpe]

/-- C4 (counterexample): in a world where the direct child survives the soft
wait and still exists at the final check, a `term`-mode `_kill_job` returns
`False` and `close_logs` is executed zero times — the handles are not
released on this path, refuting "exactly once on every path". -/
theorem close_logs_skipped_on_survivor_cex :
    (_kill_job w_surv j_demo "term").returned = some false
    ∧ (_kill_job w_surv j_demo "term").close_logs_calls = 0 := by
  decide

/-- C4 (amended): on every `_kill_job` call with a recognised mode, the log
handles are released exactly once on each path that returns `True` (process
already gone, soft terminate sufficient, hard kill sufficient, or the pid
vanished by the final check) and zero times on the path that returns `False`
(survivors remain). -/
theorem close_logs_once_on_success_paths (w : KillWorld) (job : AJob) (mode : String)
    (hm : mode ∈ valid_modes) :
    ((_kill_job w job mode).returned = some true →
       (_kill_job w job mode).close_logs_calls = 1)
    ∧ ((_kill_job w job mode).returned = some false →
       (_kill_job w job mode).close_logs_calls = 0) := by
  unfold _kill_job
  cases h : w.procs.find? (fun q => q.pid == job.pid) with
  | none => exact ⟨fun _ => rfl, fun hf => by simp at hf⟩
  | some p =>
      simp only []
      rw [if_pos hm]
      split
      · exact ⟨fun _ => rfl, fun hf => by simp at hf⟩
      · split
        · split
          · exact ⟨fun _ => rfl, fun hf => by simp at hf⟩
          · exact final_check_close_logs _ _ _ _ _
        · exact final_check_close_logs _ _ _ _ _

/-- C4 (witness): in a world where the soft terminate clears everything the
call returns `True` and the handles are closed exactly once. -/
theorem close_logs_once_on_success_paths_witness :
    ("term" : String) ∈ valid_modes
    ∧ (((_kill_job w_dead j_demo "term").returned = some true →
          (_kill_job w_dead j_demo "term").close_logs_calls = 1)
       ∧ ((_kill_job w_dead j_demo "term").returned = some false →
          (_kill_job w_dead j_demo "term").close_logs_calls = 0)) :=
  ⟨by decide, close_logs_once_on_success_paths w_dead j_demo "term" (by decide)⟩

/-! ## C10 -/

/-- C10: a `/stop` whose mode is outside the three recognised values, on a
job whose direct child still exists, skips both escalation branches, so the
final read of the local `alive` raises `UnboundLocalError`: `_kill_job`
produces no return value and the endpoint does not answer
`{status:"sent"}`. -/
theorem invalid_stop_mode_unbound_alive (kw : KillWorld) (t : JobTable) (jid : String)
    (j : AJob) (mode : String)
    (hj : job_lookup t jid = some j)
    (hm : mode ∉ valid_modes)
    (hp : (kw.procs.find? (fun q => q.pid == j.pid)).isSome = true)
    (he : kw.pid_exists_end j.pid = true) :
    (_kill_job kw j mode).returned = none
    ∧ (stop_job kw t ⟨jid, mode⟩).2
        = Resp.err (HttpErr.raised "UnboundLocalError: alive referenced before assignment") := by
  obtain ⟨p, h⟩ := Option.isSome_iff_exists.mp hp
  have hk : (_kill_job kw j mode).returned = none := by
    unfold _kill_job
    rw [h]
    simp only []
    rw [if_neg hm]
    unfold final_check
    rw [if_neg (not_not_intro he)]
  refine ⟨hk, ?_⟩
  unfold stop_job
  simp only []
  rw [hj]
  simp only []
  rw [hk]

/-- C10 (witness): mode `"hard"` against a live job raises instead of
answering. -/
theorem invalid_stop_mode_unbound_alive_witness :
    (job_lookup [("jdemo", j_demo)] "jdemo" = some j_demo
     ∧ ("hard" : String) ∉ valid_modes
     ∧ (w_surv.procs.find? (fun q => q.pid == j_demo.pid)).isSome = true
     ∧ w_surv.pid_exists_end j_demo.pid = true)
    ∧ ((_kill_job w_surv j_demo "hard").returned = none
       ∧ (stop_job w_surv [("jdemo", j_demo)] ⟨"jdemo", "hard"⟩).2
           = Resp.err (HttpErr.raised "UnboundLocalError: alive referenced before assignment")) :=
  ⟨⟨by decide, by decide, by decide, rfl⟩,
   invalid_stop_mode_unbound_alive w_surv [("jdemo", j_demo)] "jdemo" j_demo "hard"
     (by decide) (by decide) (by decide) rfl⟩

/-! ## C7 -/

/-- C7: at every live `/status` sample, `last_cpu_active_ts` becomes the
sample instant iff the fresh CPU% strictly exceeds `HUNG_CPU_PCT` (otherwise
it is untouched), `is_hung` holds iff the inactivity span reaches
`HUNG_SECS`; a fresh job starts with `last_cpu_active_ts = start_ts`, and
along any trace of samples with monotone instants the invariant
`start_ts ≤ last_cpu_active_ts ≤ now` is preserved. -/
theorem hang_rule_and_cpu_activity_invariant (cfg : AgentCfg) :
    (∀ (job : AJob) (cpu mem now : Int) (poll : Option Int),
        cfg.hung_cpu_pct < cpu →
        (snapshot_live cfg job cpu mem now poll).1.last_cpu_active_ts = now)
    ∧ (∀ (job : AJob) (cpu mem now : Int) (poll : Option Int),
        ¬ cfg.hung_cpu_pct < cpu →
        (snapshot_live cfg job cpu mem now poll).1.last_cpu_active_ts
          = job.last_cpu_active_ts)
    ∧ (∀ (job : AJob) (cpu mem now : Int) (poll : Option Int),
        (snapshot_live cfg job cpu mem now poll).1.is_hung = true ↔
          cfg.hung_secs ≤ now - (snapshot_live cfg job cpu mem now poll).1.last_cpu_active_ts)
    ∧ (∀ (jid : String) (pid : Nat) (cmd : List String) (cwd : Option String)
         (logs : Option (String × String)) (now : Int),
        (mk_job jid pid cmd cwd logs now).last_cpu_active_ts
          = (mk_job jid pid cmd cwd logs now).start_ts)
    ∧ (∀ (obs : List Obs) (job : AJob) (t0 : Int),
        job.start_ts ≤ job.last_cpu_active_ts →
        job.last_cpu_active_ts ≤ t0 →
        times_ok t0 obs = true →
        (run_snapshots cfg job obs).start_ts = job.start_ts
        ∧ job.start_ts ≤ (run_snapshots cfg job obs).last_cpu_active_ts
        ∧ (run_snapshots cfg job obs).last_cpu_active_ts ≤ end_time t0 obs) := by
  refine ⟨?_, ?_, ?_, fun _ _ _ _ _ _ => rfl, ?_⟩
  · intro job cpu mem now poll h
    simp only [snapshot_live]
    rw [if_pos h]
  · intro job cpu mem now poll h
    simp only [snapshot_live]
    rw [if_neg h]
  · intro job cpu mem now poll
    simp only [snapshot_live]
    exact decide_eq_true_iff
  · intro obs
    induction obs with
    | nil =>
        intro job t0 h1 h2 _
        exact ⟨rfl, h1, h2⟩
    | cons o rest ih =>
        intro job t0 h1 h2 h3
        cases o with
        | live cpu mem now poll =>
            simp only [times_ok, Bool.and_eq_true, decide_eq_true_eq] at h3
            obtain ⟨hto, h3r⟩ := h3
            have hstart : (snapshot_live cfg job cpu mem now poll).1.start_ts
                = job.start_ts := by
              simp [snapshot_live]
            have hnew1 : job.start_ts
                ≤ (snapshot_live cfg job cpu mem now poll).1.last_cpu_active_ts := by
              simp only [snapshot_live]
              split
              · exact le_trans h1 (le_trans h2 hto)
              · exact h1
            have hnew2 : (snapshot_live cfg job cpu mem now poll).1.last_cpu_active_ts
                ≤ now := by
              simp only [snapshot_live]
              split
              · exact le_refl now
              · exact le_trans h2 hto
            have hrec := ih (snapshot_live cfg job cpu mem now poll).1 now
              (by rw [hstart]; exact hnew1) hnew2 h3r
            refine ⟨?_, ?_, ?_⟩
            · simpa [run_snapshots, hstart] using hrec.1
            · simpa [run_snapshots, hstart] using hrec.2.1
            · simpa [run_snapshots, end_time] using hrec.2.2
        | vanished nv poll =>
            simp only [times_ok] at h3
            have hrec := ih job t0 h1 h2 h3
            simpa [run_snapshots, end_time] using hrec

/-- C7 (witness): a trace of two samples, one active and one idle, keeps
`start_ts ≤ last_cpu_active_ts ≤ now`. -/
theorem hang_rule_and_cpu_activity_invariant_witness :
    (j_demo.start_ts ≤ j_demo.last_cpu_active_ts
     ∧ j_demo.last_cpu_active_ts ≤ 0
     ∧ times_ok 0 [Obs.live 5 10 10 none, Obs.live 0 10 40 none] = true)
    ∧ ((run_snapshots ⟨1, 30⟩ j_demo
          [Obs.live 5 10 10 none, Obs.live 0 10 40 none]).start_ts = j_demo.start_ts
       ∧ j_demo.start_ts ≤ (run_snapshots ⟨1, 30⟩ j_demo
          [Obs.live 5 10 10 none, Obs.live 0 10 40 none]).last_cpu_active_ts
       ∧ (run_snapshots ⟨1, 30⟩ j_demo
          [Obs.live 5 10 10 none, Obs.live 0 10 40 none]).last_cpu_active_ts
          ≤ end_time 0 [Obs.live 5 10 10 none, Obs.live 0 10 40 none]) :=
  ⟨⟨by decide, by decide, by decide⟩,
   (hang_rule_and_cpu_activity_invariant ⟨1, 30⟩).2.2.2.2
     [Obs.live 5 10 10 none, Obs.live 0 10 40 none] j_demo 0
     (by decide) (by decide) (by decide)⟩

/-! ## C8 -/

theorem job_lookup_append_some (l1 l2 : JobTable) (k : String) (v : AJob)
    (h : job_lookup l1 k = some v) : job_lookup (l1 ++ l2) k = some v := by
  induction l1 with
  | nil => cases h
  | cons e rest ih =>
      by_cases he : e.1 = k
      · simpa [job_lookup, he] using h
      · rw [List.cons_append]
        simp only [job_lookup, he, if_false] at h ⊢
        exact ih h

theorem job_lookup_append_none (l1 l2 : JobTable) (k : String)
    (h : job_lookup l1 k = none) : job_lookup (l1 ++ l2) k = job_lookup l2 k := by
  induction l1 with
  | nil => rfl
  | cons e rest ih =>
      by_cases he : e.1 = k
      · simp [job_lookup, he] at h
      · rw [List.cons_append]
        simp only [job_lookup, he, if_false] at h ⊢
        exact ih h

theorem job_lookup_erase_self (t : JobTable) (k : String) :
    job_lookup (erase_job t k) k = none := by
  induction t with
  | nil => rfl
  | cons e rest ih =>
      unfold erase_job at ih ⊢
      rw [List.filter_cons]
      by_cases he : e.1 = k
      · rw [if_neg (by simp [he])]
        exact ih
      · rw [if_pos (by simp [he])]
        simp only [job_lookup]
        rw [if_neg he]
        exact ih

theorem job_lookup_erase_ne (t : JobTable) (k k2 : String) (h : ¬ k2 = k) :
    job_lookup (erase_job t k) k2 = job_lookup t k2 := by
  induction t with
  | nil => rfl
  | cons e rest ih =>
      unfold erase_job at ih ⊢
      rw [List.filter_cons]
      by_cases he : e.1 = k
      · have he2 : ¬ e.1 = k2 := fun hx => h (hx.symm.trans he)
        rw [if_neg (by simp [he])]
        rw [ih]
        simp only [job_lookup]
        rw [if_neg he2]
      · rw [if_pos (by simp [he])]
        simp only [job_lookup]
        by_cases he2 : e.1 = k2
        · rw [if_pos he2, if_pos he2]
        · rw [if_neg he2, if_neg he2]
          exact ih

theorem stop_job_keys (kw : KillWorld) (t : JobTable) (req : StopRequest) :
    ((stop_job kw t req).1).map Prod.fst = t.map Prod.fst := by
  unfold stop_job
  cases h : job_lookup t req.job_id with
  | none => rfl
  | some j =>
      simp only []
      cases hr : (_kill_job kw j req.mode).returned with
      | none => rfl
      | some b =>
          simp only [List.map_map]
          apply List.map_congr_left
          intro e _
          by_cases hc : e.1 = req.job_id ∧ 0 < (_kill_job kw j req.mode).close_logs_calls
          · simp [hc]
          · simp [hc]

theorem start_spawn_table (w : StartWorld) (t1 : JobTable) (req : StartRequest)
    (jid2 : String) (okm : Option String) :
    (start_spawn w t1 req jid2 okm).table = t1
    ∨ ∃ job, (start_spawn w t1 req jid2 okm).table = t1 ++ [(jid2, job)] := by
  unfold start_spawn
  cases h : _open_logs req.log_dir jid2 with
  | none =>
      simp only []
      split_ifs <;> first | exact Or.inl rfl | exact Or.inr ⟨_, rfl⟩
  | some pr =>
      obtain ⟨op, ep⟩ := pr
      simp only []
      split_ifs <;> first | exact Or.inl rfl | exact Or.inr ⟨_, rfl⟩

theorem start_409 (w : StartWorld) (t : JobTable) (jid : String) (j : AJob)
    (req : StartRequest)
    (hj : job_lookup t jid = some j) (hid : req.job_id = some jid)
    (hke : req.kill_existing = false) :
    (start_job w t req).response
      = Resp.err (HttpErr.httpEx 409 ("job_id " ++ jid ++ " already exists"))
    ∧ (start_job w t req).table = t := by
  unfold start_job
  rw [hid]
  simp only [Option.getD_some]
  rw [if_neg (fun hc => by rw [hke] at hc; cases hc.1), if_pos (by rw [hj]; rfl)]
  exact ⟨rfl, rfl⟩

theorem start_job_lookup_preserved (w : StartWorld) (t : JobTable)
    (req : StartRequest) (jid : String)
    (hbefore : (job_lookup t jid).isSome)
    (hne : req.kill_existing = true → ¬ req.job_id.getD w.fresh_id = jid) :
    (job_lookup (start_job w t req).table jid).isSome := by
  obtain ⟨j0, hj0⟩ := Option.isSome_iff_exists.mp hbefore
  unfold start_job
  simp only []
  by_cases hke : req.kill_existing = true
  · have hne2 : ¬ req.job_id.getD w.fresh_id = jid := hne hke
    by_cases hpres : (job_lookup t (req.job_id.getD w.fresh_id)).isSome = true
    · rw [if_pos ⟨hke, hpres⟩]
      have hera : job_lookup (erase_job t (req.job_id.getD w.fresh_id)) jid = some j0 := by
        rw [job_lookup_erase_ne _ _ _ (fun h => hne2 h.symm)]
        exact hj0
      rcases start_spawn_table w (erase_job t (req.job_id.getD w.fresh_id)) req
          (req.job_id.getD w.fresh_id) (some "tree_kill") with htab | ⟨job, htab⟩
      · rw [htab, hera]; rfl
      · rw [htab, job_lookup_append_some _ _ _ _ hera]; rfl
    · rw [if_neg (fun hc => hpres hc.2), if_neg hpres]
      rcases start_spawn_table w t req (req.job_id.getD w.fresh_id) none with htab | ⟨job, htab⟩
      · rw [htab]; exact hbefore
      · rw [htab, job_lookup_append_some _ _ _ _ hj0]; rfl
  · rw [if_neg (fun hc => hke hc.1)]
    by_cases hpres : (job_lookup t (req.job_id.getD w.fresh_id)).isSome = true
    · rw [if_pos hpres]
      exact hbefore
    · rw [if_neg hpres]
      rcases start_spawn_table w t req (req.job_id.getD w.fresh_id) none with htab | ⟨job, htab⟩
      · rw [htab]; exact hbefore
      · rw [htab, job_lookup_append_some _ _ _ _ hj0]; rfl

theorem start_removal_only (w : StartWorld) (t : JobTable) (req : StartRequest)
    (jid : String)
    (hbefore : (job_lookup t jid).isSome)
    (hafter : ¬ (job_lookup (start_job w t req).table jid).isSome) :
    req.kill_existing = true ∧ req.job_id.getD w.fresh_id = jid := by
  by_cases hke : req.kill_existing = true
  · by_cases hid : req.job_id.getD w.fresh_id = jid
    · exact ⟨hke, hid⟩
    · exact absurd (start_job_lookup_preserved w t req jid hbefore (fun _ => hid)) hafter
  · exact absurd
      (start_job_lookup_preserved w t req jid hbefore (fun h => absurd h hke)) hafter

theorem prune_removal_reason (now : Int) (poll : String → Option Int) (t : JobTable)
    (jid : String) (j : AJob)
    (hj : job_lookup t jid = some j)
    (hafter : job_lookup (metrics_prune now poll t) jid = none) :
    (poll jid).isSome = true ∧ 3600 < now - j.start_ts := by
  induction t with
  | nil => cases hj
  | cons e rest ih =>
      unfold metrics_prune at hafter
      rw [List.filter_cons] at hafter
      by_cases he : e.1 = jid
      · have hj2 : e.2 = j := by simpa [job_lookup, he] using hj
        by_cases hcond : (poll e.1).isSome = true ∧ 3600 < now - e.2.start_ts
        · rw [← he, ← hj2]
          exact hcond
        · exfalso
          rw [if_pos (by simp [hcond])] at hafter
          simp [job_lookup, he] at hafter
      · have hj3 : job_lookup rest jid = some j := by simpa [job_lookup, he] using hj
        refine ih hj3 ?_
        show job_lookup (metrics_prune now poll rest) jid = none
        unfold metrics_prune
        by_cases hcond : (poll e.1).isSome = true ∧ 3600 < now - e.2.start_ts
        · rwa [if_neg (by simp [hcond.1, hcond.2])] at hafter
        · rw [if_pos (by simp [hcond])] at hafter
          simpa [job_lookup, he] using hafter

/-- C8: `/stop` never removes an entry from the job table (it preserves the
key sequence, whatever the mode and whether termination succeeded); a
follow-up `/start` with the same `job_id` and `kill_existing = false` gets a
409 with the table unchanged regardless of the job's process state; and an
entry can only disappear through `metrics_prune` (child reaped and more than
3600 s old) or through a `/start` whose resolved id targets it with
`kill_existing = true`. -/
theorem stop_never_removes_job :
    (∀ (kw : KillWorld) (t : JobTable) (req : StopRequest),
        ((stop_job kw t req).1).map Prod.fst = t.map Prod.fst)
    ∧ (∀ (w : StartWorld) (t : JobTable) (jid : String) (j : AJob) (req : StartRequest),
        job_lookup t jid = some j → req.job_id = some jid → req.kill_existing = false →
        (start_job w t req).response
          = Resp.err (HttpErr.httpEx 409 ("job_id " ++ jid ++ " already exists"))
        ∧ (start_job w t req).table = t)
    ∧ (∀ (w : StartWorld) (t : JobTable) (req : StartRequest) (jid : String),
        (job_lookup t jid).isSome → ¬ (job_lookup (start_job w t req).table jid).isSome →
        req.kill_existing = true ∧ req.job_id.getD w.fresh_id = jid)
    ∧ (∀ (now : Int) (poll : String → Option Int) (t : JobTable) (jid : String) (j : AJob),
        job_lookup t jid = some j → job_lookup (metrics_prune now poll t) jid = none →
        (poll jid).isSome = true ∧ 3600 < now - j.start_ts) :=
  ⟨stop_job_keys,
   fun w t jid j req hj hid hke => start_409 w t jid j req hj hid hke,
   fun w t req jid h1 h2 => start_removal_only w t req jid h1 h2,
   fun now poll t jid j h1 h2 => prune_removal_reason now poll t jid j h1 h2⟩

/-- A start world for concrete runs: nothing fails, fresh pid 99 at t=1000. -/
def sw_demo : StartWorld := ⟨w_surv, "fresh", false, false, false, 99, 1000⟩

/-- A duplicate start request with `kill_existing = false`. -/
def req_dup : StartRequest := ⟨some "jdemo", ["c"], none, none, none, false⟩

/-- C8 (witness): a duplicate `/start` against a table already holding the
id is rejected with 409 and leaves the table intact. -/
theorem stop_never_removes_job_witness :
    (job_lookup [("jdemo", j_demo)] "jdemo" = some j_demo
     ∧ req_dup.job_id = some "jdemo" ∧ req_dup.kill_existing = false)
    ∧ ((start_job sw_demo [("jdemo", j_demo)] req_dup).response
         = Resp.err (HttpErr.httpEx 409 ("job_id " ++ "jdemo" ++ " already exists"))
       ∧ (start_job sw_demo [("jdemo", j_demo)] req_dup).table = [("jdemo", j_demo)]) :=
  ⟨⟨by decide, rfl, rfl⟩,
   stop_never_removes_job.2.1 sw_demo [("jdemo", j_demo)] "jdemo" j_demo req_dup
     (by decide) rfl rfl⟩

/-! ## C5 -/

/-- A start world whose stderr-log `open` fails. -/
def sw_err : StartWorld := ⟨w_surv, "fresh", false, true, false, 99, 1000⟩

/-- A start request carrying a log directory. -/
def req_logs : StartRequest := ⟨some "jobx", ["c"], none, none, some "L", false⟩

/-- C5 (counterexample): when the stderr `open` fails, the already-opened
stdout handle is left open — nothing closes it before the handler raises —
refuting "every partially acquired handle is released before the handler
returns".  (No Job is registered, and the raise does surface as a 500.) -/
theorem start_stderr_open_failure_cex :
    (start_job sw_err [] req_logs).opened = ["L/jobx.out.log"]
    ∧ (start_job sw_err [] req_logs).closed = []
    ∧ (start_job sw_err [] req_logs).response
        = Resp.err (HttpErr.raised "OSError: opening stderr log failed")
    ∧ (start_job sw_err [] req_logs).table = [] := by
  decide

/-- C5 (amended): on a log-open failure `/start` raises (surfacing as a
generic 500) and registers no Job, but releases nothing: a stdout failure
leaves no handle open, while a stderr failure leaves the stdout handle open;
only the `Popen` failure path closes the handles it opened. -/
theorem start_open_failure_no_release (w : StartWorld) (t : JobTable)
    (req : StartRequest) (d : String)
    (hd : req.log_dir = some d) (hne : ¬ d = "")
    (hfree : job_lookup t (req.job_id.getD w.fresh_id) = none) :
    (w.stdout_open_fails = true →
       (start_job w t req).opened = [] ∧ (start_job w t req).closed = []
       ∧ (∃ m, (start_job w t req).response = Resp.err (HttpErr.raised m))
       ∧ (start_job w t req).table = t)
    ∧ (w.stdout_open_fails = false → w.stderr_open_fails = true →
       (start_job w t req).opened
         = [d ++ "/" ++ req.job_id.getD w.fresh_id ++ ".out.log"]
       ∧ (start_job w t req).closed = []
       ∧ (∃ m, (start_job w t req).response = Resp.err (HttpErr.raised m))
       ∧ (start_job w t req).table = t)
    ∧ (w.stdout_open_fails = false → w.stderr_open_fails = false →
       w.spawn_fails = true →
       (start_job w t req).closed = (start_job w t req).opened
       ∧ (start_job w t req).response = Resp.err (HttpErr.httpEx 500 "Failed to start")
       ∧ (start_job w t req).table = t) := by
  have hsj : start_job w t req
      = start_spawn w t req (req.job_id.getD w.fresh_id) none := by
    unfold start_job
    simp only []
    rw [if_neg (fun hc => by rw [hfree] at hc; exact absurd hc.2 (by simp)),
        if_neg (fun hc => by rw [hfree] at hc; exact absurd hc (by simp))]
  have hol : _open_logs req.log_dir (req.job_id.getD w.fresh_id)
      = some (d ++ "/" ++ req.job_id.getD w.fresh_id ++ ".out.log",
              d ++ "/" ++ req.job_id.getD w.fresh_id ++ ".err.log") := by
    rw [hd]
    unfold _open_logs
    simp only []
    rw [if_neg hne]
  rw [hsj]
  unfold start_spawn
  rw [hol]
  simp only []
  refine ⟨?_, ?_, ?_⟩
  · intro h1
    rw [if_pos h1]
    exact ⟨rfl, rfl, ⟨_, rfl⟩, rfl⟩
  · intro h1 h2
    rw [if_neg (by simp [h1]), if_pos h2]
    exact ⟨rfl, rfl, ⟨_, rfl⟩, rfl⟩
  · intro h1 h2 h3
    rw [if_neg (by simp [h1]), if_neg (by simp [h2]), if_pos h3]
    exact ⟨rfl, rfl, rfl⟩

/-- C5 (witness): the stderr-open-failure branch of the amended statement at
a concrete world. -/
theorem start_open_failure_no_release_witness :
    (req_logs.log_dir = some "L" ∧ ¬ ("L" : String) = ""
     ∧ job_lookup [] (req_logs.job_id.getD sw_err.fresh_id) = none
     ∧ sw_err.stdout_open_fails = false ∧ sw_err.stderr_open_fails = true)
    ∧ ((start_job sw_err [] req_logs).opened
         = ["L" ++ "/" ++ req_logs.job_id.getD sw_err.fresh_id ++ ".out.log"]
       ∧ (start_job sw_err [] req_logs).closed = []
       ∧ (∃ m, (start_job sw_err [] req_logs).response = Resp.err (HttpErr.raised m))
       ∧ (start_job sw_err [] req_logs).table = []) :=
  ⟨⟨rfl, by decide, rfl, rfl, rfl⟩,
   (start_open_failure_no_release sw_err [] req_logs "L" rfl (by decide) rfl).2.1 rfl rfl⟩

/-! ## C6 -/

/-- A one-client inventory for concrete runs. -/
def inv_demo : Inventory := ⟨"tok", [⟨"a", "host2", none⟩]⟩

/-- C6 (counterexample): a filter matching no client prints the warning and
dispatches nothing, but the invocation does not complete: every fan-out
constructs `ThreadPoolExecutor(max_workers=min(32, 0))`, which raises
`ValueError` before any request is submitted. -/
theorem empty_filter_cex :
    (filter_clients inv_demo (some "b")).1.clients = []
    ∧ (filter_clients inv_demo (some "b")).2 = true
    ∧ start_all_net (filter_clients inv_demo (some "b")).1
        = ([], some "ValueError: max_workers must be greater than 0")
    ∧ exec_start_net (filter_clients inv_demo (some "b")).1
        = ([], some "ValueError: max_workers must be greater than 0") := by
  decide

/-- C6 (amended): whenever a non-empty `--clients` filter matches no
inventory entry, the warning is printed and no HTTP request is dispatched by
any subcommand, but each subcommand then raises the zero-worker `ValueError`
from its pool construction instead of completing normally. -/
theorem empty_filter_warns_then_raises (inv : Inventory) (f : String)
    (hf : ¬ f = "")
    (hempty : (filter_clients inv (some f)).1.clients = []) :
    (filter_clients inv (some f)).2 = true
    ∧ start_all_net (filter_clients inv (some f)).1
        = ([], some "ValueError: max_workers must be greater than 0")
    ∧ (∀ m, stop_all_net (filter_clients inv (some f)).1 m
        = ([], some "ValueError: max_workers must be greater than 0"))
    ∧ status_net (filter_clients inv (some f)).1
        = ([], some "ValueError: max_workers must be greater than 0")
    ∧ exec_start_net (filter_clients inv (some f)).1
        = ([], some "ValueError: max_workers must be greater than 0") := by
  have hfc : filter_clients inv (some f)
      = (Inventory.mk inv.token
          (inv.clients.filter (fun c => ((pySplitComma f).map pyStrip).contains c.name)),
         (inv.clients.filter (fun c => ((pySplitComma f).map pyStrip).contains c.name)).isEmpty) := by
    unfold filter_clients
    simp only []
    rw [if_neg hf]
  refine ⟨?_, ?_, ?_, ?_, ?_⟩
  · rw [hfc] at hempty ⊢
    simp only [] at hempty ⊢
    rw [hempty]
    rfl
  · unfold start_all_net pool_fan_out
    rw [hempty]
    rfl
  · intro m
    unfold stop_all_net pool_fan_out
    rw [hempty]
    rfl
  · unfold status_net pool_fan_out
    rw [hempty]
    rfl
  · unfold exec_start_net pool_fan_out
    rw [hempty]
    rfl

/-- C6 (witness): the amended statement at the one-client inventory with
filter `"b"`. -/
theorem empty_filter_warns_then_raises_witness :
    (¬ ("b" : String) = "" ∧ (filter_clients inv_demo (some "b")).1.clients = [])
    ∧ ((filter_clients inv_demo (some "b")).2 = true
       ∧ start_all_net (filter_clients inv_demo (some "b")).1
           = ([], some "ValueError: max_workers must be greater than 0")
       ∧ (∀ m, stop_all_net (filter_clients inv_demo (some "b")).1 m
           = ([], some "ValueError: max_workers must be greater than 0"))
       ∧ status_net (filter_clients inv_demo (some "b")).1
           = ([], some "ValueError: max_workers must be greater than 0")
       ∧ exec_start_net (filter_clients inv_demo (some "b")).1
           = ([], some "ValueError: max_workers must be greater than 0")) :=
  ⟨⟨by decide, by decide⟩,
   empty_filter_warns_then_raises inv_demo "b" (by decide) (by decide)⟩

/-! ## C9 -/

/-- C9: both CLI payload builders hard-code `kill_existing = True`; against a
table already holding the id the agent therefore never answers 409 — it
tree-kills the old job and, on success, replaces it with the freshly spawned
one. -/
theorem controller_payloads_force_kill_existing :
    (∀ (jid exe : String) (args : List String) (cwd : Option String) (logd : String),
        (start_cli_payload jid exe args cwd logd).kill_existing = true
        ∧ (exec_cli_payload jid exe args cwd logd).kill_existing = true)
    ∧ (∀ (w : StartWorld) (t : JobTable) (jid exe : String) (args : List String)
         (cwd : Option String) (logd : String) (j : AJob),
        job_lookup t jid = some j →
        (start_job w t (start_cli_payload jid exe args cwd logd)).old_kill_mode
          = some "tree_kill"
        ∧ (∀ dtl, (start_job w t (start_cli_payload jid exe args cwd logd)).response
             ≠ Resp.err (HttpErr.httpEx 409 dtl))
        ∧ (∀ r, (start_job w t (start_cli_payload jid exe args cwd logd)).response
              = Resp.ok r →
            ∃ j2, job_lookup
                (start_job w t (start_cli_payload jid exe args cwd logd)).table jid
                = some j2
              ∧ j2.start_ts = w.now ∧ j2.pid = w.new_pid)) := by
  refine ⟨fun _ _ _ _ _ => ⟨rfl, rfl⟩, ?_⟩
  intro w t jid exe args cwd logd j hj
  have hjid : (start_cli_payload jid exe args cwd logd).job_id.getD w.fresh_id = jid :=
    rfl
  have hsj : start_job w t (start_cli_payload jid exe args cwd logd)
      = start_spawn w (erase_job t jid) (start_cli_payload jid exe args cwd logd)
          jid (some "tree_kill") := by
    unfold start_job
    simp only []
    rw [hjid]
    rw [if_pos ⟨rfl, by rw [hj]; rfl⟩]
  rw [hsj]
  have hera : job_lookup (erase_job t jid) jid = none := job_lookup_erase_self t jid
  unfold start_spawn
  cases ho : _open_logs (start_cli_payload jid exe args cwd logd).log_dir jid with
  | none =>
      simp only []
      split_ifs with h1
      · refine ⟨rfl, fun dtl hc => ?_, fun r hr => ?_⟩
        · exact absurd hc (by simp)
        · exact absurd hr (by simp)
      · refine ⟨rfl, fun dtl hc => ?_, fun r _ => ?_⟩
        · exact absurd hc (by simp)
        · refine ⟨mk_job jid w.new_pid (start_cli_payload jid exe args cwd logd).cmd
              (start_cli_payload jid exe args cwd logd).cwd none w.now, ?_, rfl, rfl⟩
          rw [job_lookup_append_none _ _ _ hera]
          simp [job_lookup]
  | some pr =>
      obtain ⟨op, ep⟩ := pr
      simp only []
      split_ifs with h1 h2 h3
      · refine ⟨rfl, fun dtl hc => ?_, fun r hr => ?_⟩
        · exact absurd hc (by simp)
        · exact absurd hr (by simp)
      · refine ⟨rfl, fun dtl hc => ?_, fun r hr => ?_⟩
        · exact absurd hc (by simp)
        · exact absurd hr (by simp)
      · refine ⟨rfl, fun dtl hc => ?_, fun r hr => ?_⟩
        · exact absurd hc (by simp)
        · exact absurd hr (by simp)
      · refine ⟨rfl, fun dtl hc => ?_, fun r _ => ?_⟩
        · exact absurd hc (by simp)
        · refine ⟨mk_job jid w.new_pid (start_cli_payload jid exe args cwd logd).cmd
              (start_cli_payload jid exe args cwd logd).cwd (some (op, ep)) w.now,
              ?_, rfl, rfl⟩
          rw [job_lookup_append_none _ _ _ hera]
          simp [job_lookup]

/-- C9 (witness): a `start` payload against a table already holding the id
is not rejected and records the tree-kill of the old job. -/
theorem controller_payloads_force_kill_existing_witness :
    (job_lookup [("jdemo", j_demo)] "jdemo" = some j_demo)
    ∧ ((start_job sw_demo [("jdemo", j_demo)]
          (start_cli_payload "jdemo" "run.exe" [] none "L")).old_kill_mode
        = some "tree_kill"
       ∧ (∀ dtl, (start_job sw_demo [("jdemo", j_demo)]
            (start_cli_payload "jdemo" "run.exe" [] none "L")).response
            ≠ Resp.err (HttpErr.httpEx 409 dtl))
       ∧ (∀ r, (start_job sw_demo [("jdemo", j_demo)]
              (start_cli_payload "jdemo" "run.exe" [] none "L")).response = Resp.ok r →
           ∃ j2, job_lookup (start_job sw_demo [("jdemo", j_demo)]
                (start_cli_payload "jdemo" "run.exe" [] none "L")).table "jdemo"
                = some j2
             ∧ j2.start_ts = sw_demo.now ∧ j2.pid = sw_demo.new_pid)) :=
  ⟨by decide,
   controller_payloads_force_kill_existing.2 sw_demo [("jdemo", j_demo)]
     "jdemo" "run.exe" [] none "L" j_demo (by decide)⟩

end Orchestrator
